import Mathlib

/-!
Verification of the workspace snapshot / undo subsystem of
`imageJ_toolkit_v2.24.py` (Cell Image Analysis Toolbox).

The Python source is shallowly embedded below.  Documents are the open
images of the ImageJ workspace (title plus opaque pixel content); the
checkpoint stack `CHECKPOINT_STACK` is a list of checkpoint-directory
identifiers (the millisecond timestamps used to name the directories
`chk_<timestamp>` under `CHECKPOINT_ROOT`); the file system is an
association list from those identifiers to the folder contents.  The
external image engine's save/load of TIFF files is lossless, so a serialized
file is modelled as its (filename, content) pair.  The wall clock read by
`time.time() * 1000` is passed to `save_checkpoint` as an explicit argument.
-/

/-- A document (an `ImagePlus`) open in the workspace: a title and an opaque
pixel content, here an abstract `Nat` since the subsystem never inspects it. -/
structure Document where
  title : String
  content : Nat
deriving DecidableEq, Repr

/-- Contents of one checkpoint directory: serialized files, as
(filename, content) pairs in creation order. -/
abbrev Folder := List (String × Nat)

/-- The checkpoint root: an association list from checkpoint identifiers
(millisecond timestamps) to directory contents; a key is present exactly when
the directory exists on disk. -/
abbrev Disk := List (Nat × Folder)

/-- The state touched by the subsystem: the open documents, the global
`CHECKPOINT_STACK` (oldest first, as in the Python list), the directories
under `CHECKPOINT_ROOT`, whether the root itself exists, and the global
`LAST_DROPPED_FILES`. -/
structure SysState where
  workspace : List Document
  stack : List Nat
  disk : Disk
  rootExists : Bool
  dropped : List String
deriving DecidableEq, Repr

/-! String helpers mirroring the Python string methods used in the source.
They operate on the character list so that every definition is structurally
recursive (hence kernel-reducible).  `replaceLoop` is Python's
`str.replace` (replace every non-overlapping occurrence, scanning left to
right); the fuel argument is the length of the scanned list. -/

/-- Scanning loop of Python `str.replace`; `fuel` bounds the number of scan
steps and is instantiated with the length of the scanned list. -/
def replaceLoop (pat rep : List Char) : Nat → List Char → List Char
  | _, [] => []
  | 0, l => l
  | fuel + 1, c :: rest =>
    if !pat.isEmpty && pat.isPrefixOf (c :: rest) then
      rep ++ replaceLoop pat rep fuel (List.drop pat.length (c :: rest))
    else
      c :: replaceLoop pat rep fuel rest

/-- Python `s.replace(pat, rep)` for a non-empty pattern. -/
def pyReplace (s pat rep : String) : String :=
  ⟨replaceLoop pat.data rep.data s.data.length s.data⟩

/-- Python `s.lower()` (ASCII case folding suffices for the source's uses). -/
def pyLower (s : String) : String :=
  ⟨s.data.map Char.toLower⟩

/-- Python `s.endswith(suffix)`. -/
def pyEndsWith (s suffix : String) : Bool :=
  suffix.data.isSuffixOf s.data

/-- Python `s[:-n]`: drop the last `n` characters. -/
def pyDropRight (s : String) (n : Nat) : String :=
  ⟨s.data.take (s.data.length - n)⟩

/-! The checkpoint logic of the source (lines 305-371). -/

/-- Line 336: `safe_title = imp.getTitle().replace("/", "_").replace("\\", "_")`. -/
def sanitize (t : String) : String :=
  pyReplace (pyReplace t "/" "_") "\\" "_"

/-- Lines 337-339: the file name used for a document, the sanitized title with
`".tif"` appended unless it already ends (case-insensitively) in `".tif"`. -/
def withTif (s : String) : String :=
  if pyEndsWith (pyLower s) ".tif" then s else s ++ ".tif"

/-- File name a document's serialized form is saved under. -/
def fileNameOf (t : String) : String := withTif (sanitize t)

/-- Line 341: `imp.setTitle(safe_title.replace(".tif", ""))` — the title the
document carries after the snapshot has serialized it. -/
def titleAfterSave (t : String) : String :=
  pyReplace (sanitize t) ".tif" ""

/-- Line 366: `orig_name = f.getName()[:-4]` — the title recovered from a
serialized file's name on restore. -/
def recoveredTitle (t : String) : String :=
  pyDropRight (fileNameOf t) 4

/-- Write one file into a folder; `IJ.saveAs` overwrites an existing file of
the same name, otherwise the file is created (appended in creation order). -/
def saveFile (folder : Folder) (name : String) (c : Nat) : Folder :=
  match folder with
  | [] => [(name, c)]
  | (n, c') :: rest =>
    if n = name then (n, c) :: rest else (n, c') :: saveFile rest name c

/-- Lines 333-340: serialize every open document into the checkpoint folder. -/
def writeDocs (folder : Folder) (docs : List Document) : Folder :=
  docs.foldl (fun f d => saveFile f (fileNameOf d.title) d.content) folder

/-- Look up a checkpoint directory on disk (`File(path).exists()` plus its
listing). -/
def diskGet (disk : Disk) (id : Nat) : Option Folder :=
  (disk.find? (fun e => e.1 == id)).map (fun e => e.2)

/-- Line 346: `shutil.rmtree(oldest_folder)` — remove a checkpoint directory. -/
def diskDelete (disk : Disk) (id : Nat) : Disk :=
  disk.filter (fun e => e.1 != id)

/-- Lines 221-223, `get_undo_max_steps`: the max-steps preference clamped to
`[1, 10]`. -/
def get_undo_max_steps (pref : Nat) : Nat :=
  max 1 (min 10 pref)

/-- Lines 344-347: `while len(CHECKPOINT_STACK) > max_steps: pop(0); rmtree`.
Evicts front (oldest) entries, deleting their directories, until the stack
depth is within `maxSteps`. -/
def trimLoop : List Nat → Nat → Disk → List Nat × Disk
  | [], _, disk => ([], disk)
  | oldest :: rest, maxSteps, disk =>
    if (oldest :: rest).length > maxSteps then
      trimLoop rest maxSteps (diskDelete disk oldest)
    else
      (oldest :: rest, disk)

/-- Lines 325-347, `save_checkpoint`: if no document is open, return at once
(before even the root directory is touched); otherwise create the directory
`chk_<now>` (`os.mkdir` raises if it already exists, aborting the operation
with the root created but nothing else changed), serialize every open document
into it — retitling each document to its sanitized title with `".tif"`
removed — append the directory to the stack and trim to the configured depth. -/
def save_checkpoint (pref : Nat) (now : Nat) (s : SysState) : SysState :=
  if s.workspace.isEmpty then s
  else if (diskGet s.disk now).isSome then { s with rootExists := true }
  else
    let folder := writeDocs [] s.workspace
    let ws := s.workspace.map (fun d => { d with title := titleAfterSave d.title })
    let max_steps := get_undo_max_steps pref
    let p := trimLoop (s.stack ++ [now]) max_steps (s.disk ++ [(now, folder)])
    { s with workspace := ws, stack := p.1, disk := p.2, rootExists := true }

/-- A sequence of `save_checkpoint` calls, one per wall-clock reading in
`ts`. -/
def snapshotSeq (pref : Nat) (ts : List Nat) (s : SysState) : SysState :=
  ts.foldl (fun st t => save_checkpoint pref t st) s

/-- Lines 349-371, `restore_last_checkpoint`: pop the most recent checkpoint
(returning `false` on an empty stack); if its directory is gone return
`false` with only the pop performed; otherwise close every open document,
reopen one document per `.tif` file in the directory (title = file name minus
its last four characters), delete the consumed directory and return `true`. -/
def restore_last_checkpoint (s : SysState) : Bool × SysState :=
  match s.stack.getLast? with
  | none => (false, s)
  | some last =>
    let s1 := { s with stack := s.stack.dropLast }
    match diskGet s.disk last with
    | none => (false, s1)
    | some files =>
      let newDocs :=
        (files.filter (fun f => pyEndsWith (pyLower f.1) ".tif")).map
          (fun f => ({ title := pyDropRight f.1 4, content := f.2 } : Document))
      (true, { s1 with workspace := newDocs, disk := diskDelete s1.disk last })

/-- Lines 315-323, `cleanup_all_checkpoints`: delete the whole checkpoint
root and empty the stack. -/
def cleanup_all_checkpoints (s : SysState) : SysState :=
  { s with stack := [], disk := [], rootExists := false }

/-- Line 646: one `Bio-Formats Importer` invocation; the external importer is
opaque to the subsystem, which only receives a fresh document handle per
path. -/
def importDoc (p : String) : Document :=
  { title := p, content := 0 }

/-- Lines 638-647, `reload_originals`: close every open document and re-import
each path of `LAST_DROPPED_FILES`. -/
def reload_originals (s : SysState) : SysState :=
  { s with workspace := s.dropped.map importDoc }

/-- Outcome of the Smart Undo action as observed by the caller. -/
inductive UndoOutcome
  | Restored
  | RestoredFromSource
  | NothingToRestore
  | Cancelled
deriving DecidableEq, Repr

/-- Lines 608-636, `run_undo_reload`: decide between stepping back on the
checkpoint stack and reloading the original source files.  `ok1` is the
user's answer to the initial confirmation dialog and `ok2` the answer to the
"Checkpoint missing. Reload originals?" dialog; both are consulted only when
the confirm preference is set. -/
def run_undo_reload (confirm ok1 ok2 : Bool) (s : SysState) : UndoOutcome × SysState :=
  let canStepBack := !s.stack.isEmpty
  let canReload := !s.dropped.isEmpty
  if confirm && !canStepBack && !canReload then (.NothingToRestore, s)
  else if confirm && !ok1 then (.Cancelled, s)
  else if canStepBack then
    match restore_last_checkpoint s with
    | (true, s1) => (.Restored, s1)
    | (false, s1) =>
      if canReload then
        if confirm && !ok2 then (.Cancelled, s1)
        else (.RestoredFromSource, reload_originals s1)
      else (.NothingToRestore, s1)
  else if canReload then (.RestoredFromSource, reload_originals s)
  else (.NothingToRestore, s)

/-- Session-start state: documents open, no checkpoints, no root, no dropped
files. -/
def initState (w : List Document) : SysState :=
  { workspace := w, stack := [], disk := [], rootExists := false, dropped := [] }

/-! Event-level model of the module entry points (lines 389-413, 415-445,
492-538, 540-581, 583-604, 649-657).  Each module is translated to the list
of externally observable events it performs, in statement order; `Event.mutate`
marks a workspace mutation, `Event.snapshot` the `save_checkpoint()` call.
Boolean parameters stand for the workspace contents, the stored preferences
and the user's dialog answers that select the branch taken. -/

/-- One observable step of a module run. -/
inductive Event
  | snapshot
  | dialog (name : String)
  | message (name : String)
  | mutate (name : String)
deriving DecidableEq, Repr

/-- Lines 389-413, `run_roi_crop_tool`. -/
def roiCropTrace (hasImage hasRoi confirm applyAll : Bool) : List Event :=
  Event.snapshot ::
    (if !hasImage then [Event.message "no image open"]
     else if !hasRoi then [Event.message "draw a roi first"]
     else
       (if confirm then [Event.dialog "confirm crop"] else []) ++
         [Event.mutate (if applyAll then "crop all images" else "crop current image")])

/-- Lines 415-445, `run_batch_merge`. -/
def batchMergeTrace (confirm okRun : Bool) : List Event :=
  Event.snapshot ::
    (if confirm && !okRun then [Event.dialog "confirm merge"]
     else
       (if confirm then [Event.dialog "confirm merge"] else []) ++
         [Event.mutate "merge channels in every image"])

/-- Lines 492-538, `run_ratio_analysis`. -/
def ratioTrace (hasImages confirm okRun doBatch okCloseOriginals : Bool) : List Event :=
  Event.snapshot ::
    (if !hasImages then [Event.message "no images open"]
     else if confirm && !okRun then [Event.dialog "ratio parameters"]
     else
       (if confirm then [Event.dialog "ratio parameters"] else []) ++
         [Event.mutate (if doBatch then "create ratio images for all" else "create ratio image"),
          Event.dialog "close originals"] ++
         (if okCloseOriginals then [Event.mutate "close original images"] else []))

/-- Lines 540-581, `run_scale_bar_and_copy_sequence`. -/
def scaleBarTrace (hasImages enableBar enableCopy okCloseAll : Bool) : List Event :=
  Event.snapshot ::
    (if !hasImages then [Event.message "no images open"]
     else
       (if enableBar then [Event.mutate "draw scale bars"] else []) ++
         (if enableCopy then
            Event.dialog "paste sequence" ::
              (if okCloseAll then [Event.mutate "close all images"] else [])
          else if enableBar then [Event.message "scale bars added"] else []))

/-- Lines 583-604, `run_batch_brightness_tool`. -/
def brightnessTrace (hasImages okChannel okApply : Bool) : List Event :=
  Event.snapshot ::
    (if !hasImages then []
     else if !okChannel then [Event.dialog "choose channel"]
     else
       [Event.dialog "choose channel", Event.mutate "set channel positions",
        Event.dialog "apply to all"] ++
         (if okApply then [Event.mutate "apply display range to all"] else []))

/-- Lines 649-657, `run_close_all_no_save`. -/
def closeAllTrace (hasImages okClose : Bool) : List Event :=
  Event.snapshot ::
    (if !hasImages then []
     else if okClose then [Event.dialog "close all", Event.mutate "close all images"]
     else [Event.dialog "close all"])

/-- A trace in which every workspace mutation is strictly preceded by an
earlier snapshot event. -/
def snapshotPrecedesMutations (tr : List Event) : Prop :=
  ∀ (j : Nat) (d : String), tr[j]? = some (Event.mutate d) →
    ∃ i, i < j ∧ tr[i]? = some Event.snapshot

/-! Fine-grained model of the shared checkpoint-stack mutations, for the
concurrency analysis.  The background drop-import worker (lines 674-680) ends
in `save_checkpoint`, whose stack mutations are the directory write
(lines 329-341), the `append` (line 342) and the trim loop (lines 344-347);
the foreground undo performs the `pop` (line 352).  The source takes no lock
around any of these, so an execution may interleave the two threads' steps
arbitrarily. -/

/-- One atomic stack/root mutation from the source. -/
inductive StackOp
  | mkdirWrite (t : Nat)
  | push (t : Nat)
  | trim (pref : Nat)
  | popLast
deriving DecidableEq, Repr

/-- Effect of a single mutation on the shared state. -/
def applyOp (s : SysState) : StackOp → SysState
  | .mkdirWrite t =>
    { s with
      disk := s.disk ++ [(t, writeDocs [] s.workspace)],
      workspace := s.workspace.map (fun d => { d with title := titleAfterSave d.title }),
      rootExists := true }
  | .push t => { s with stack := s.stack ++ [t] }
  | .trim pref =>
    let p := trimLoop s.stack (get_undo_max_steps pref) s.disk
    { s with stack := p.1, disk := p.2 }
  | .popLast => { s with stack := s.stack.dropLast }

/-- Run a sequence of mutations. -/
def applyOps (s : SysState) (ops : List StackOp) : SysState :=
  ops.foldl applyOp s

/-- The stack mutations performed by one `save_checkpoint` call on a
non-empty workspace with a fresh timestamp, in source order. -/
def saveStackOps (pref t : Nat) : List StackOp :=
  [.mkdirWrite t, .push t, .trim pref]

/-- The stack mutation performed by `restore_last_checkpoint` on a non-empty
stack. -/
def restoreStackOps : List StackOp :=
  [.popLast]

/-- `IsInterleaving xs ys zs` holds when `zs` is an order-preserving
interleaving of the two threads' operation lists `xs` and `ys`. -/
inductive IsInterleaving : List StackOp → List StackOp → List StackOp → Prop
  | nil : IsInterleaving [] [] []
  | left {x : StackOp} {xs ys zs : List StackOp} :
      IsInterleaving xs ys zs → IsInterleaving (x :: xs) ys (x :: zs)
  | right {y : StackOp} {xs ys zs : List StackOp} :
      IsInterleaving xs ys zs → IsInterleaving xs (y :: ys) (y :: zs)

/-- A concrete shared state: one open document, one checkpoint (id 5) on the
stack and on disk, one previously dropped source file. -/
def raceState : SysState :=
  { workspace := [{ title := "A", content := 0 }],
    stack := [5],
    disk := [(5, [("A.tif", 0)])],
    rootExists := true,
    dropped := ["srcA"] }

/-! Basic lemmas about the disk and the trim loop. -/

theorem diskGet_eq_none_of_not_mem {d : Disk} {u : Nat}
    (h : u ∉ d.map Prod.fst) : diskGet d u = none := by
  induction d with
  | nil => rfl
  | cons e rest ih =>
    simp only [List.map_cons, List.mem_cons, not_or] at h
    unfold diskGet
    rw [List.find?_cons_of_neg]
    · exact ih h.2
    · simp [Ne.symm h.1]

theorem diskGet_append_self {d : Disk} {t : Nat} {f : Folder}
    (h : t ∉ d.map Prod.fst) : diskGet (d ++ [(t, f)]) t = some f := by
  induction d with
  | nil => simp [diskGet]
  | cons e rest ih =>
    simp only [List.map_cons, List.mem_cons, not_or] at h
    unfold diskGet
    rw [List.cons_append, List.find?_cons_of_neg]
    · exact ih h.2
    · simp [Ne.symm h.1]

theorem diskDelete_of_not_mem {d : Disk} {u : Nat}
    (h : u ∉ d.map Prod.fst) : diskDelete d u = d := by
  induction d with
  | nil => rfl
  | cons e rest ih =>
    simp only [List.map_cons, List.mem_cons, not_or] at h
    unfold diskDelete
    rw [List.filter_cons_of_pos]
    · exact congrArg (e :: ·) (ih h.2)
    · simp [Ne.symm h.1]

theorem trimLoop_of_le {l : List Nat} {m : Nat} {d : Disk}
    (h : l.length ≤ m) : trimLoop l m d = (l, d) := by
  cases l with
  | nil => rfl
  | cons a rest =>
    unfold trimLoop
    rw [if_neg (Nat.not_lt.mpr h)]

theorem trimLoop_isDrop (l : List Nat) (m : Nat) (d : Disk) :
    ∃ k, (trimLoop l m d).1 = l.drop k := by
  induction l generalizing d with
  | nil => exact ⟨0, rfl⟩
  | cons a rest ih =>
    by_cases h : (a :: rest).length > m
    · obtain ⟨k, hk⟩ := ih (diskDelete d a)
      refine ⟨k + 1, ?_⟩
      unfold trimLoop
      rw [if_pos h]
      simpa using hk
    · refine ⟨0, ?_⟩
      unfold trimLoop
      rw [if_neg h]
      rfl

theorem trimLoop_spec : ∀ (l : List Nat) (m : Nat) (d : Disk),
    d.map Prod.fst = l → l.Nodup →
    trimLoop l m d = (l.drop (l.length - m), d.drop (l.length - m)) := by
  intro l
  induction l with
  | nil =>
    intro m d h _
    have hd : d = [] := List.map_eq_nil_iff.mp h
    subst hd
    simp [trimLoop]
  | cons a rest ih =>
    intro m d h hnd
    cases d with
    | nil => simp at h
    | cons e d' =>
      simp only [List.map_cons, List.cons.injEq] at h
      obtain ⟨he, hd'⟩ := h
      have htail : rest.Nodup := (List.nodup_cons.mp hnd).2
      have hnotin : a ∉ d'.map Prod.fst := by
        rw [hd']; exact (List.nodup_cons.mp hnd).1
      by_cases hlen : (a :: rest).length > m
      · have hdel : diskDelete (e :: d') a = d' := by
          have h1 : (e.1 != a) = false := by simp [he]
          unfold diskDelete
          rw [List.filter_cons_of_neg (by simp [h1])]
          exact diskDelete_of_not_mem hnotin
        have harith : (a :: rest).length - m = (rest.length - m) + 1 := by
          simp only [List.length_cons] at hlen ⊢
          omega
        unfold trimLoop
        rw [if_pos hlen, hdel, ih m d' hd' htail, harith]
        simp [List.drop_succ_cons]
      · have hle : (a :: rest).length ≤ m := Nat.not_lt.mp hlen
        have harith : (a :: rest).length - m = 0 := by omega
        rw [trimLoop_of_le hle, harith]
        simp

/-! Lemmas about `save_checkpoint`. -/

theorem one_le_get_undo_max_steps (pref : Nat) : 1 ≤ get_undo_max_steps pref :=
  Nat.le_max_left 1 (min 10 pref)

theorem get_undo_max_steps_eq {M : Nat} (h1 : 1 ≤ M) (h2 : M ≤ 10) :
    get_undo_max_steps M = M := by
  unfold get_undo_max_steps
  omega

theorem save_checkpoint_spec (pref t : Nat) (s : SysState)
    (hw : s.workspace ≠ [])
    (hkeys : s.disk.map Prod.fst = s.stack)
    (hfresh : t ∉ s.stack)
    (hnodup : s.stack.Nodup) :
    save_checkpoint pref t s =
      { s with
        workspace := s.workspace.map (fun d => { d with title := titleAfterSave d.title }),
        stack := (s.stack ++ [t]).drop (s.stack.length + 1 - get_undo_max_steps pref),
        disk := (s.disk ++ [(t, writeDocs [] s.workspace)]).drop
                  (s.stack.length + 1 - get_undo_max_steps pref),
        rootExists := true } := by
  have hne : ¬ (s.workspace.isEmpty = true) := by
    simp only [List.isEmpty_iff]
    exact hw
  have hget : diskGet s.disk t = none :=
    diskGet_eq_none_of_not_mem (by rw [hkeys]; exact hfresh)
  have hkeys2 : (s.disk ++ [(t, writeDocs [] s.workspace)]).map Prod.fst = s.stack ++ [t] := by
    simp [hkeys]
  have hnodup2 : (s.stack ++ [t]).Nodup := by
    simp only [List.nodup_append, List.nodup_cons, List.not_mem_nil, not_false_iff,
      List.nodup_nil, and_true, true_and]
    constructor
    · exact hnodup
    · intro x hx hx1
      simp only [List.mem_singleton] at hx1
      exact hfresh (hx1 ▸ hx)
  have hlen : (s.stack ++ [t]).length = s.stack.length + 1 := by simp
  unfold save_checkpoint
  rw [if_neg hne, if_neg (by simp [hget])]
  simp only [trimLoop_spec _ _ _ hkeys2 hnodup2, hlen]

theorem save_checkpoint_initState (pref t : Nat) (w : List Document) (hw : w ≠ []) :
    save_checkpoint pref t (initState w) =
      { workspace := w.map (fun d => { d with title := titleAfterSave d.title }),
        stack := [t],
        disk := [(t, writeDocs [] w)],
        rootExists := true,
        dropped := [] } := by
  have h := save_checkpoint_spec pref t (initState w) hw rfl (by simp [initState])
    (by simp [initState])
  rw [h]
  have h0 : 1 - get_undo_max_steps pref = 0 := by
    have := one_le_get_undo_max_steps pref
    omega
  simp [initState, h0]

/-! Lemmas about document serialization into a checkpoint folder. -/

theorem saveFile_of_not_mem {folder : Folder} {name : String} {c : Nat}
    (h : name ∉ folder.map Prod.fst) : saveFile folder name c = folder ++ [(name, c)] := by
  induction folder with
  | nil => rfl
  | cons e rest ih =>
    obtain ⟨n, c'⟩ := e
    simp only [List.map_cons, List.mem_cons, not_or] at h
    unfold saveFile
    rw [if_neg (Ne.symm h.1)]
    rw [List.cons_append]
    exact congrArg _ (ih h.2)

set_option maxHeartbeats 1000000 in
theorem writeDocs_eq : ∀ (w : List Document) (folder : Folder),
    ((w.map fun d => fileNameOf d.title).Nodup) →
    (∀ d ∈ w, fileNameOf d.title ∉ folder.map Prod.fst) →
    writeDocs folder w = folder ++ w.map (fun d => (fileNameOf d.title, d.content)) := by
  intro w
  induction w with
  | nil => intro folder _ _; simp [writeDocs]
  | cons d rest ih =>
    intro folder hnd hfresh
    simp only [List.map_cons, List.nodup_cons] at hnd
    have hstep : saveFile folder (fileNameOf d.title) d.content
        = folder ++ [(fileNameOf d.title, d.content)] :=
      saveFile_of_not_mem (hfresh d (List.mem_cons_self d rest))
    have hfresh2 : ∀ d' ∈ rest,
        fileNameOf d'.title ∉ (folder ++ [(fileNameOf d.title, d.content)]).map Prod.fst := by
      intro d' hd'
      simp only [List.map_append, List.mem_append, List.map_cons, List.map_nil,
        List.mem_singleton, not_or]
      refine ⟨hfresh d' (List.mem_cons_of_mem d hd'), ?_⟩
      intro heq
      apply hnd.1
      rw [← heq]
      exact List.mem_map_of_mem (fun d => fileNameOf d.title) hd' 
    unfold writeDocs at ih ⊢
    simp only [List.foldl_cons]
    rw [hstep, ih (folder ++ [(fileNameOf d.title, d.content)]) hnd.2 hfresh2]
    simp

/-! String-level facts about the title transformations. -/

theorem pyDropRight_append_tif (s : String) : pyDropRight (s ++ ".tif") 4 = s := by
  unfold pyDropRight
  rw [String.data_append]
  have h2 : (".tif" : String).data.length = 4 := rfl
  rw [List.length_append, h2]
  have h3 : s.data.length + 4 - 4 = s.data.length := by omega
  rw [h3, List.take_left]

theorem pyEndsWith_withTif (s : String) : pyEndsWith (pyLower (withTif s)) ".tif" = true := by
  unfold withTif
  by_cases h : pyEndsWith (pyLower s) ".tif"
  · rw [if_pos h]
    exact h
  · rw [if_neg h]
    unfold pyEndsWith pyLower
    rw [String.data_append, List.map_append]
    have h2 : ((".tif" : String).data).map Char.toLower = (".tif" : String).data := by decide
    rw [h2]
    rw [List.isSuffixOf_iff_suffix]
    exact List.suffix_append _ _

theorem recoveredTitle_eq (s : String) :
    recoveredTitle s =
      if pyEndsWith (pyLower (sanitize s)) ".tif" = true
      then pyDropRight (sanitize s) 4
      else sanitize s := by
  unfold recoveredTitle fileNameOf withTif
  by_cases h : pyEndsWith (pyLower (sanitize s)) ".tif" = true
  · rw [if_pos h, if_pos h]
  · rw [if_neg h, if_neg h]
    exact pyDropRight_append_tif _

theorem diskGet_single (t : Nat) (F : Folder) : diskGet [(t, F)] t = some F := by
  unfold diskGet
  simp

theorem diskDelete_single (t : Nat) (F : Folder) : diskDelete [(t, F)] t = [] := by
  unfold diskDelete
  simp

/-- Restoring from a state whose single checkpoint directory holds the folder
`F`. -/
theorem restore_single (ws : List Document) (t : Nat) (F : Folder) (dr : List String) :
    restore_last_checkpoint
        { workspace := ws, stack := [t], disk := [(t, F)], rootExists := true, dropped := dr } =
      (true,
       { workspace :=
           (F.filter fun f => pyEndsWith (pyLower f.1) ".tif").map
             (fun f => { title := pyDropRight f.1 4, content := f.2 }),
         stack := [],
         disk := [],
         rootExists := true,
         dropped := dr }) := by
  unfold restore_last_checkpoint
  simp only [List.getLast?_singleton, diskGet_single, diskDelete_single, List.dropLast_single]

/-- Round trip of one snapshot followed by an immediate restore, starting from
a fresh session, when the documents' serialized file names do not collide. -/
theorem snapshot_restore_eq (pref t : Nat) (w : List Document) (hw : w ≠ [])
    (hdist : (w.map fun d => fileNameOf d.title).Nodup) :
    restore_last_checkpoint (save_checkpoint pref t (initState w)) =
      (true,
       { workspace := w.map (fun d => { title := recoveredTitle d.title, content := d.content }),
         stack := [],
         disk := [],
         rootExists := true,
         dropped := [] }) := by
  rw [save_checkpoint_initState pref t w hw]
  have hF : writeDocs [] w = w.map fun d => (fileNameOf d.title, d.content) :=
    writeDocs_eq w [] hdist (by simp)
  rw [restore_single]
  have hfilter :
      ((writeDocs [] w).filter fun f => pyEndsWith (pyLower f.1) ".tif")
        = w.map fun d => (fileNameOf d.title, d.content) := by
    rw [hF]
    apply List.filter_eq_self.mpr
    intro a ha
    obtain ⟨d, _, rfl⟩ := List.mem_map.mp ha
    exact pyEndsWith_withTif (sanitize d.title)
  rw [hfilter, List.map_map]
  rfl

/-- Invariant of a whole run of snapshots: starting from a state whose disk
holds exactly the stacked checkpoints, with strictly increasing wall-clock
readings, the stack and the disk end up holding exactly the most recent
`MaxDepth` checkpoint identifiers, and the workspace keeps its size. -/
theorem snapshotSeq_spec (pref : Nat) : ∀ (ts : List Nat) (s : SysState),
    s.workspace ≠ [] →
    s.disk.map Prod.fst = s.stack →
    s.stack.length ≤ get_undo_max_steps pref →
    ((s.stack ++ ts).Chain' (· < ·)) →
    (snapshotSeq pref ts s).stack
        = (s.stack ++ ts).drop ((s.stack ++ ts).length - get_undo_max_steps pref) ∧
    (snapshotSeq pref ts s).disk.map Prod.fst = (snapshotSeq pref ts s).stack ∧
    (snapshotSeq pref ts s).workspace.length = s.workspace.length := by
  intro ts
  induction ts with
  | nil =>
    intro s hw hkeys hlen _
    refine ⟨?_, hkeys, rfl⟩
    have h0 : s.stack.length - get_undo_max_steps pref = 0 := by omega
    simp [snapshotSeq, h0]
  | cons t ts ih =>
    intro s hw hkeys hlen hchain
    have hpw : (s.stack ++ t :: ts).Pairwise (· < ·) :=
      List.chain'_iff_pairwise.mp hchain
    obtain ⟨hpw1, hpw2, hcross⟩ := List.pairwise_append.mp hpw
    have hfresh : t ∉ s.stack := by
      intro hmem
      exact absurd (hcross t hmem t (List.mem_cons_self t ts)) (lt_irrefl t)
    have hnodup : s.stack.Nodup := hpw1.imp (fun hlt => Nat.ne_of_lt hlt)
    have hstep := save_checkpoint_spec pref t s hw hkeys hfresh hnodup
    have hseq : snapshotSeq pref (t :: ts) s
        = snapshotSeq pref ts (save_checkpoint pref t s) := rfl
    have hstack2 : (save_checkpoint pref t s).stack
        = (s.stack ++ [t]).drop (s.stack.length + 1 - get_undo_max_steps pref) := by
      rw [hstep]
    have hdisk2 : (save_checkpoint pref t s).disk.map Prod.fst
        = (save_checkpoint pref t s).stack := by
      rw [hstep]
      simp only [List.map_drop, List.map_append, hkeys]
      rfl
    have hw2 : (save_checkpoint pref t s).workspace ≠ [] := by
      rw [hstep]
      simp only []
      intro hc
      exact hw (List.map_eq_nil_iff.mp hc)
    have hlen2 : (save_checkpoint pref t s).stack.length ≤ get_undo_max_steps pref := by
      rw [hstack2]
      simp only [List.length_drop, List.length_append, List.length_cons, List.length_nil]
      omega
    have hk_le : s.stack.length + 1 - get_undo_max_steps pref ≤ (s.stack ++ [t]).length := by
      simp only [List.length_append, List.length_cons, List.length_nil]
      omega
    have hsplit : (save_checkpoint pref t s).stack ++ ts
        = (s.stack ++ t :: ts).drop (s.stack.length + 1 - get_undo_max_steps pref) := by
      rw [hstack2, ← List.drop_append_of_le_length hk_le, List.append_assoc]
      rfl
    have hchain2 : (((save_checkpoint pref t s).stack ++ ts)).Chain' (· < ·) := by
      rw [hsplit]
      exact List.chain'_iff_pairwise.mpr (hpw.sublist (List.drop_sublist _ _))
    obtain ⟨ih1, ih2, ih3⟩ := ih (save_checkpoint pref t s) hw2 hdisk2 hlen2 hchain2
    refine ⟨?_, ?_, ?_⟩
    · rw [hseq, ih1, hsplit, List.drop_drop]
      congr 1
      simp only [List.length_drop, List.length_append, List.length_cons]
      omega
    · rw [hseq]
      exact ih2
    · rw [hseq, ih3, hstep]
      simp

/-! The claims. -/

/-- C1: for every sequence of N snapshot calls (each taken with at least one
document open, under strictly increasing millisecond clock readings) with
configured MaxDepth M, the checkpoint stack afterwards has size min(N, M), the
stack and the surviving directories are exactly the newest min(N, M)
checkpoints, the directories of the max(0, N-M) oldest checkpoints no longer
exist, and the trim loop only ever evicts a front (oldest) segment of the
stack, never any other entry. -/
theorem snapshot_sequence_bounded_history (M : Nat) (ts : List Nat) (w : List Document)
    (hM1 : 1 ≤ M) (hM2 : M ≤ 10)
    (hw : w ≠ []) (hclock : List.Chain' (· < ·) ts) :
    (snapshotSeq M ts (initState w)).stack.length = min ts.length M ∧
    (snapshotSeq M ts (initState w)).stack = ts.drop (ts.length - M) ∧
    (snapshotSeq M ts (initState w)).disk.map Prod.fst = ts.drop (ts.length - M) ∧
    (∀ u ∈ ts.take (ts.length - M),
      diskGet (snapshotSeq M ts (initState w)).disk u = none) ∧
    (∀ (l : List Nat) (m : Nat) (d : Disk), ∃ k, (trimLoop l m d).1 = l.drop k) := by
  have hMeq : get_undo_max_steps M = M := get_undo_max_steps_eq hM1 hM2
  obtain ⟨h1, h2, _⟩ := snapshotSeq_spec M ts (initState w) hw rfl
    (by simp [initState]) (by simpa [initState] using hclock)
  have h1' : (snapshotSeq M ts (initState w)).stack = ts.drop (ts.length - M) := by
    simpa [initState, hMeq] using h1
  refine ⟨?_, h1', h2.trans h1', ?_, trimLoop_isDrop⟩
  · rw [h1']
    simp only [List.length_drop]
    omega
  · intro u hu
    apply diskGet_eq_none_of_not_mem
    rw [h2.trans h1']
    have hnd : ts.Nodup :=
      (List.chain'_iff_pairwise.mp hclock).imp (fun hlt => Nat.ne_of_lt hlt)
    rw [← List.take_append_drop (ts.length - M) ts] at hnd
    exact (List.nodup_append.mp hnd).2.2 hu

theorem snapshot_sequence_bounded_history_witness :
    ((1 : Nat) ≤ 2 ∧ (2 : Nat) ≤ 10 ∧ ([⟨"A", 0⟩] : List Document) ≠ [] ∧
      List.Chain' (· < ·) [1, 2, 3]) ∧
    (snapshotSeq 2 [1, 2, 3] (initState [⟨"A", 0⟩])).stack
      = [1, 2, 3].drop ([1, 2, 3].length - 2) :=
  ⟨⟨by decide, by decide, by decide,
    by simp only [List.chain'_cons, List.chain'_singleton, and_true]; omega⟩,
   (snapshot_sequence_bounded_history 2 [1, 2, 3] [⟨"A", 0⟩]
      (by decide) (by decide) (by decide)
      (by simp only [List.chain'_cons, List.chain'_singleton, and_true]; omega)).2.1⟩

/-- C2: snapshotting a fresh workspace holding exactly the documents titled
"A", "B", "C" and then immediately restoring yields a workspace whose titles
are exactly that set again (order-insensitive), the restore reports success,
and the consumed checkpoint's directory no longer exists. -/
theorem snapshot_restore_roundtrip_titles (a b c t pref : Nat) :
    (restore_last_checkpoint (save_checkpoint pref t
        (initState [⟨"A", a⟩, ⟨"B", b⟩, ⟨"C", c⟩]))).1 = true ∧
    ((restore_last_checkpoint (save_checkpoint pref t
        (initState [⟨"A", a⟩, ⟨"B", b⟩, ⟨"C", c⟩]))).2.workspace.map
          Document.title).Perm ["A", "B", "C"] ∧
    diskGet (restore_last_checkpoint (save_checkpoint pref t
        (initState [⟨"A", a⟩, ⟨"B", b⟩, ⟨"C", c⟩]))).2.disk t = none ∧
    (restore_last_checkpoint (save_checkpoint pref t
        (initState [⟨"A", a⟩, ⟨"B", b⟩, ⟨"C", c⟩]))).2.stack = [] := by
  have hdist : (([⟨"A", a⟩, ⟨"B", b⟩, ⟨"C", c⟩] : List Document).map
      (fun d => fileNameOf d.title)).Nodup := by
    have hmap : (([⟨"A", a⟩, ⟨"B", b⟩, ⟨"C", c⟩] : List Document).map
        (fun d => fileNameOf d.title)) = [fileNameOf "A", fileNameOf "B", fileNameOf "C"] := rfl
    rw [hmap]
    decide
  have h := snapshot_restore_eq pref t [⟨"A", a⟩, ⟨"B", b⟩, ⟨"C", c⟩]
    (by simp) hdist
  rw [h]
  exact ⟨rfl, List.Perm.refl _, rfl, rfl⟩

/-- C3 counterexample: the document titled "A.tif" contains no path-separator
character (sanitization leaves it unchanged), yet after a snapshot and restore
the recovered title is "A", not "A.tif" — the title transformation is not
limited to path-separator substitution. -/
theorem title_roundtrip_counterexample :
    sanitize "A.tif" = "A.tif" ∧
    (restore_last_checkpoint (save_checkpoint 5 1
        (initState [⟨"A.tif", 0⟩]))).2.workspace.map Document.title = ["A"] ∧
    ("A" : String) ≠ "A.tif" := by
  decide

/-- C3 (amended): once fully written, the checkpoint directory holds exactly
one serialized file per open document — provided the documents' sanitized
file names do not collide — and the title recovered on restore equals the
sanitized title except that a (case-insensitive) trailing ".tif" extension is
removed: the transformation is path-separator substitution plus ".tif"
suffix stripping, not path-separator substitution alone. -/
theorem checkpoint_directory_contents (pref t : Nat) (w : List Document)
    (hw : w ≠ [])
    (hdist : (w.map fun d => fileNameOf d.title).Nodup) :
    diskGet (save_checkpoint pref t (initState w)).disk t
        = some (w.map fun d => (fileNameOf d.title, d.content)) ∧
    (restore_last_checkpoint (save_checkpoint pref t (initState w))).2.workspace
        = w.map (fun d => { title := recoveredTitle d.title, content := d.content }) ∧
    (∀ d ∈ w, recoveredTitle d.title =
        if pyEndsWith (pyLower (sanitize d.title)) ".tif" = true
        then pyDropRight (sanitize d.title) 4
        else sanitize d.title) := by
  refine ⟨?_, ?_, fun d _ => recoveredTitle_eq d.title⟩
  · rw [save_checkpoint_initState pref t w hw]
    have hF : writeDocs [] w = w.map fun d => (fileNameOf d.title, d.content) := by
      rw [writeDocs_eq w [] hdist (by simp)]
      rfl
    simp only [diskGet_single, hF]
  · rw [snapshot_restore_eq pref t w hw hdist]

theorem checkpoint_directory_contents_witness :
    (([⟨"A.tif", 0⟩, ⟨"B", 1⟩] : List Document) ≠ []) ∧
    (([⟨"A.tif", 0⟩, ⟨"B", 1⟩] : List Document).map (fun d => fileNameOf d.title)).Nodup ∧
    diskGet (save_checkpoint 5 1 (initState [⟨"A.tif", 0⟩, ⟨"B", 1⟩])).disk 1
        = some (([⟨"A.tif", 0⟩, ⟨"B", 1⟩] : List Document).map
            fun d => (fileNameOf d.title, d.content)) :=
  ⟨by decide, by decide,
   (checkpoint_directory_contents 5 1 [⟨"A.tif", 0⟩, ⟨"B", 1⟩]
      (by decide) (by decide)).1⟩

/-- C4: with a single checkpoint on the stack whose backing directory has been
deleted out-of-band and a non-empty dropped-file set, the undo action takes
the source-reload fallback: it reports `RestoredFromSource` and the workspace
ends up holding one document per dropped path. -/
theorem undo_reload_falls_back_to_source (t : Nat) (w : List Document) (disk : Disk)
    (ps : List String) (confirm ok1 ok2 : Bool)
    (hmiss : diskGet disk t = none)
    (hps : ps ≠ [])
    (hok : confirm = true → ok1 = true ∧ ok2 = true) :
    run_undo_reload confirm ok1 ok2
        { workspace := w, stack := [t], disk := disk, rootExists := true, dropped := ps } =
      (UndoOutcome.RestoredFromSource,
       { workspace := ps.map importDoc, stack := [], disk := disk,
         rootExists := true, dropped := ps }) := by
  have hre : restore_last_checkpoint
      { workspace := w, stack := [t], disk := disk, rootExists := true, dropped := ps } =
      (false, { workspace := w, stack := [], disk := disk, rootExists := true,
                dropped := ps }) := by
    unfold restore_last_checkpoint
    simp only [List.getLast?_singleton, hmiss, List.dropLast_single]
  have hcrl : ps.isEmpty = false := by
    cases ps with
    | nil => exact absurd rfl hps
    | cons a l => rfl
  cases confirm with
  | false =>
    unfold run_undo_reload
    simp only [hre, hcrl, reload_originals, List.isEmpty_cons, Bool.not_false,
      Bool.false_and, Bool.and_false, if_false, Bool.not_true, Bool.true_and]
    rfl
  | true =>
    obtain ⟨ho1, ho2⟩ := hok rfl
    subst ho1
    subst ho2
    unfold run_undo_reload
    simp only [hre, hcrl, reload_originals, List.isEmpty_cons, Bool.not_false,
      Bool.false_and, Bool.and_false, if_false, Bool.not_true, Bool.true_and]
    rfl

theorem undo_reload_falls_back_to_source_witness :
    diskGet ([] : Disk) 3 = none ∧ (["p1", "p2"] : List String) ≠ [] ∧
    (false = true → true = true ∧ true = true) ∧
    run_undo_reload false true true
        { workspace := [⟨"X", 9⟩], stack := [3], disk := [], rootExists := true,
          dropped := ["p1", "p2"] } =
      (UndoOutcome.RestoredFromSource,
       { workspace := (["p1", "p2"] : List String).map importDoc, stack := [], disk := [],
         rootExists := true, dropped := ["p1", "p2"] }) :=
  ⟨rfl, by decide, by decide,
   undo_reload_falls_back_to_source 3 [⟨"X", 9⟩] [] ["p1", "p2"] false true true
     rfl (by decide) (by decide)⟩

/-- C5: calling the snapshot operation with zero open documents is a complete
no-op: the state (stack, disk, root directory, everything) is returned
unchanged, and no checkpoint directory is created. -/
theorem empty_workspace_snapshot_noop (pref t : Nat) (s : SysState)
    (h : s.workspace = []) : save_checkpoint pref t s = s := by
  simp [save_checkpoint, h]

theorem empty_workspace_snapshot_noop_witness :
    (initState ([] : List Document)).workspace = [] ∧
    save_checkpoint 5 99 (initState []) = initState [] :=
  ⟨rfl, empty_workspace_snapshot_noop 5 99 (initState []) rfl⟩

/-- A trace headed by the snapshot event satisfies
`snapshotPrecedesMutations`: any mutation sits strictly after index 0. -/
theorem snapshot_head_precedes (rest : List Event) :
    snapshotPrecedesMutations (Event.snapshot :: rest) := by
  intro j d hj
  refine ⟨0, ?_, by simp⟩
  cases j with
  | zero => simp at hj
  | succ n => exact Nat.succ_pos n

/-- C6: in every destructive module operation (ROI crop, batch merge, ratio
analysis, scale-bar and copy, batch brightness, close-all), the snapshot call
happens strictly before any workspace mutation on every execution path:
whatever branch the preferences, workspace contents and dialog answers
select, any mutation event in the trace is preceded by an earlier snapshot
event. -/
theorem modules_snapshot_before_mutation :
    (∀ hasImage hasRoi confirm applyAll,
      snapshotPrecedesMutations (roiCropTrace hasImage hasRoi confirm applyAll)) ∧
    (∀ confirm okRun, snapshotPrecedesMutations (batchMergeTrace confirm okRun)) ∧
    (∀ hasImages confirm okRun doBatch okClose,
      snapshotPrecedesMutations (ratioTrace hasImages confirm okRun doBatch okClose)) ∧
    (∀ hasImages enableBar enableCopy okCloseAll,
      snapshotPrecedesMutations (scaleBarTrace hasImages enableBar enableCopy okCloseAll)) ∧
    (∀ hasImages okChannel okApply,
      snapshotPrecedesMutations (brightnessTrace hasImages okChannel okApply)) ∧
    (∀ hasImages okClose, snapshotPrecedesMutations (closeAllTrace hasImages okClose)) := by
  refine ⟨?_, ?_, ?_, ?_, ?_, ?_⟩ <;> intros <;> exact snapshot_head_precedes _

theorem modules_snapshot_before_mutation_witness :
    snapshotPrecedesMutations (closeAllTrace true true) :=
  modules_snapshot_before_mutation.2.2.2.2.2 true true

/-- C7 counterexample: snapshotting the workspace holding the single document
titled "cell.tif" rewrites that document's title to "cell": the snapshot does
not leave every open document's title unchanged. -/
theorem snapshot_mutates_title_counterexample :
    (initState [⟨"cell.tif", 7⟩]).workspace.map Document.title = ["cell.tif"] ∧
    (save_checkpoint 5 1 (initState [⟨"cell.tif", 7⟩])).workspace.map
        Document.title = ["cell"] ∧
    ("cell" : String) ≠ "cell.tif" := by
  decide

/-- C7 (amended): a snapshot taken in a fresh session never changes the
number of open documents or any document's content, but it rewrites each
document's title to the path-separator-sanitized title with every occurrence
of ".tif" removed (titles without path separators or a ".tif" substring are
untouched). -/
theorem snapshot_preserves_content_rewrites_title (pref t : Nat) (w : List Document) :
    (save_checkpoint pref t (initState w)).workspace
      = w.map (fun d => { title := titleAfterSave d.title, content := d.content }) := by
  by_cases hw : w = []
  · subst hw
    simp [save_checkpoint, initState]
  · rw [save_checkpoint_initState pref t w hw]

/-- C8: the drop-import worker thread's `save_checkpoint` and a foreground
undo's `restore_last_checkpoint` mutate `CHECKPOINT_STACK` with no lock, so
their stack operations can interleave: the schedule that runs the restore's
pop between the save's append and its trim is a legal interleaving of the two
threads' operations and produces a stack that neither serial order can
produce. -/
theorem stack_mutations_can_interleave :
    IsInterleaving (saveStackOps 1 7) restoreStackOps
        [StackOp.mkdirWrite 7, StackOp.push 7, StackOp.popLast, StackOp.trim 1] ∧
    (applyOps raceState
        [StackOp.mkdirWrite 7, StackOp.push 7, StackOp.popLast, StackOp.trim 1]).stack
      ≠ (applyOps raceState (saveStackOps 1 7 ++ restoreStackOps)).stack ∧
    (applyOps raceState
        [StackOp.mkdirWrite 7, StackOp.push 7, StackOp.popLast, StackOp.trim 1]).stack
      ≠ (applyOps raceState (restoreStackOps ++ saveStackOps 1 7)).stack := by
  refine ⟨?_, by decide, by decide⟩
  exact .left (.left (.right (.left .nil)))

/-- Sanity check tying the operation-level model to the source functions: on a
non-empty workspace with a fresh timestamp, running the three save operations
in sequence is exactly `save_checkpoint`. -/
theorem applyOps_saveStackOps (pref t : Nat) (s : SysState)
    (hw : s.workspace.isEmpty = false) (hfresh : diskGet s.disk t = none) :
    applyOps s (saveStackOps pref t) = save_checkpoint pref t s := by
  unfold applyOps saveStackOps save_checkpoint
  rw [if_neg (by simp [hw]), if_neg (by simp [hfresh])]
  simp only [List.foldl_cons, List.foldl_nil, applyOp]

/-- C9 counterexample: the checkpoint identifier is just the wall-clock
reading; two successive snapshots whose clock readings are 5 then 3 (a clock
step backwards) both succeed and leave the identifiers in the order [5, 3],
which is not strictly increasing. -/
theorem snapshot_ids_not_monotone_counterexample :
    (snapshotSeq 5 [5, 3] (initState [⟨"A", 0⟩])).stack = [5, 3] ∧
    ¬ List.Chain' (· < ·) ((snapshotSeq 5 [5, 3] (initState [⟨"A", 0⟩])).stack) := by
  constructor
  · decide
  · intro hc
    have h5 : (snapshotSeq 5 [5, 3] (initState [⟨"A", 0⟩])).stack = [5, 3] := by decide
    rw [h5] at hc
    simp only [List.chain'_cons, List.chain'_singleton, and_true] at hc
    omega

/-- C9 (amended): each checkpoint's directory identifier equals the
millisecond clock reading taken at its snapshot; the code does not itself
enforce monotonicity, but whenever the clock readings of the session's
snapshots are strictly increasing, the identifiers on the stack are strictly
increasing and pairwise distinct. -/
theorem snapshot_ids_follow_clock (pref : Nat) (ts : List Nat) (w : List Document)
    (hw : w ≠ []) (hclock : List.Chain' (· < ·) ts) :
    (snapshotSeq pref ts (initState w)).stack
        = ts.drop (ts.length - get_undo_max_steps pref) ∧
    List.Chain' (· < ·) ((snapshotSeq pref ts (initState w)).stack) ∧
    ((snapshotSeq pref ts (initState w)).stack).Nodup := by
  obtain ⟨h1, _, _⟩ := snapshotSeq_spec pref ts (initState w) hw rfl
    (by simp [initState]) (by simpa [initState] using hclock)
  have h1' : (snapshotSeq pref ts (initState w)).stack
      = ts.drop (ts.length - get_undo_max_steps pref) := by
    simpa [initState] using h1
  have hpw : ts.Pairwise (· < ·) := List.chain'_iff_pairwise.mp hclock
  refine ⟨h1', ?_, ?_⟩
  · rw [h1']
    exact List.chain'_iff_pairwise.mpr (hpw.sublist (List.drop_sublist _ _))
  · rw [h1']
    exact ((hpw.imp fun hlt => Nat.ne_of_lt hlt).sublist (List.drop_sublist _ _))

theorem snapshot_ids_follow_clock_witness :
    (([⟨"A", 0⟩] : List Document) ≠ []) ∧ List.Chain' (· < ·) [1, 2] ∧
    (snapshotSeq 7 [1, 2] (initState [⟨"A", 0⟩])).stack
      = [1, 2].drop ([1, 2].length - get_undo_max_steps 7) :=
  ⟨by decide,
   by simp only [List.chain'_cons, List.chain'_singleton, and_true]; omega,
   (snapshot_ids_follow_clock 7 [1, 2] [⟨"A", 0⟩] (by decide)
      (by simp only [List.chain'_cons, List.chain'_singleton, and_true]; omega)).1⟩

/-- C10: on a non-empty checkpoint stack, the restore operation removes
exactly one entry (the most recent) regardless of outcome, and when the
popped checkpoint's directory is missing it returns failure with the
workspace, the disk and the dropped-file set all left untouched — only the
pop happened. -/
theorem restore_pops_exactly_one (s : SysState) (h : s.stack ≠ []) :
    (restore_last_checkpoint s).2.stack = s.stack.dropLast ∧
    (restore_last_checkpoint s).2.stack.length = s.stack.length - 1 ∧
    (∀ last, s.stack.getLast? = some last → diskGet s.disk last = none →
      restore_last_checkpoint s = (false, { s with stack := s.stack.dropLast })) := by
  obtain ⟨last, hlast⟩ : ∃ last, s.stack.getLast? = some last := by
    cases hs : s.stack.getLast? with
    | none => exact absurd (List.getLast?_eq_none_iff.mp hs) h
    | some x => exact ⟨x, rfl⟩
  have hstack : (restore_last_checkpoint s).2.stack = s.stack.dropLast := by
    unfold restore_last_checkpoint
    rw [hlast]
    cases hd : diskGet s.disk last <;> simp [hd]
  refine ⟨hstack, ?_, ?_⟩
  · rw [hstack]
    exact List.length_dropLast _
  · intro l hl hmiss
    rw [hlast] at hl
    injection hl with hl
    subst hl
    unfold restore_last_checkpoint
    rw [hlast]
    simp only [hmiss]

theorem restore_pops_exactly_one_witness :
    (({ workspace := [⟨"A", 5⟩], stack := [3], disk := [], rootExists := true,
        dropped := [] } : SysState).stack ≠ []) ∧
    (restore_last_checkpoint
        { workspace := [⟨"A", 5⟩], stack := [3], disk := [], rootExists := true,
          dropped := [] }).2.stack
      = ({ workspace := [⟨"A", 5⟩], stack := [3], disk := [], rootExists := true,
           dropped := [] } : SysState).stack.dropLast :=
  ⟨by decide,
   (restore_pops_exactly_one
      { workspace := [⟨"A", 5⟩], stack := [3], disk := [], rootExists := true,
        dropped := [] } (by decide)).1⟩
